import Mathlib

/-!
# Shallow embedding of the `telegram-rs` wire-format codec and transport client

This file embeds the Rust sources of the repository:

* `src/telegram/src/ser.rs` — the `Serialize` trait and its impls for
  `bool`, `i8`/`u8`, `i16`/`i32`/`i64`, `u16`/`u32`/`u64`, `f32`/`f64`,
  `i128`/`u128`, `(i128, i128)`, `String`, `Vec<T>` and `Box<Any>`;
* `src/telegram/src/client.rs` — `Client::send`.

Modelling conventions:

* A buffer `Vec<u8>` is a `List Nat` of byte values; `serialize_to(&self,
  buffer: &mut Vec<u8>)` becomes a function `List Nat → Option (List Nat)`
  returning the new buffer contents.  Writing into a `Vec<u8>` cannot fail,
  so the `io::Result` returned by the `byteorder` writers is always `Ok`;
  the `none` case of the `Option` models a Rust panic (the `panic!` in the
  `Box<Any>` impl, and `byteorder`'s assertion in `write_uint` when the
  value does not fit into the requested number of bytes).
* Rust machine integers are `Int` (signed) or `Nat` (unsigned) together
  with explicit reduction modulo `2^w` exactly where the Rust code
  truncates (`as u32`, two's-complement byte output, `u128::high64`).
* Floats are carried as their IEEE-754 bit patterns (a `Nat`), since the
  codec only ever moves their bytes (`write_f32::<LittleEndian>` writes the
  bit pattern little-endian).
-/

/-- Little-endian byte list of width `k` for the value `n` (the byte
`i` is `n / 256^i % 256`), as produced by `byteorder::LittleEndian`. -/
def leBytes (k : Nat) (n : Nat) : List Nat :=
  (List.range k).map (fun i => n / 256 ^ i % 256)

/-- Big-endian byte list of width `k` for the value `n`, as produced by
`byteorder::BigEndian`. -/
def beBytes (k : Nat) (n : Nat) : List Nat :=
  (List.range k).map (fun i => n / 256 ^ (k - 1 - i) % 256)

@[simp] theorem leBytes_length (k n : Nat) : (leBytes k n).length = k := by
  simp [leBytes]

@[simp] theorem beBytes_length (k n : Nat) : (beBytes k n).length = k := by
  simp [beBytes]

/-- The bit pattern of a Rust signed integer of width `w`, i.e. the value
reduced into `[0, 2^w)` by two's complement. -/
def toUnsigned (w : Nat) (v : Int) : Nat :=
  (v % (2 ^ w : Nat)).toNat

/-- `impl Serialize for bool`: `write_i32::<LittleEndian>(-1720552011)` for
`true` and `write_i32::<LittleEndian>(-1132882121)` for `false`. -/
def serializeBool (b : Bool) (buffer : List Nat) : Option (List Nat) :=
  if b then
    some (buffer ++ leBytes 4 (toUnsigned 32 (-1720552011)))
  else
    some (buffer ++ leBytes 4 (toUnsigned 32 (-1132882121)))

/-- `impl Serialize for i8`: `buffer.push(*self as u8)`. -/
def serializeI8 (v : Int) (buffer : List Nat) : Option (List Nat) :=
  some (buffer ++ [toUnsigned 8 v])

/-- `impl Serialize for u8`: `buffer.push(*self)`. -/
def serializeU8 (v : Nat) (buffer : List Nat) : Option (List Nat) :=
  some (buffer ++ [v % 2 ^ 8])

/-- `impl_serialize!(i16, write_i16<LittleEndian>)`. -/
def serializeI16 (v : Int) (buffer : List Nat) : Option (List Nat) :=
  some (buffer ++ leBytes 2 (toUnsigned 16 v))

/-- `impl_serialize!(i32, write_i32<LittleEndian>)`. -/
def serializeI32 (v : Int) (buffer : List Nat) : Option (List Nat) :=
  some (buffer ++ leBytes 4 (toUnsigned 32 v))

/-- `impl_serialize!(i64, write_i64<LittleEndian>)`. -/
def serializeI64 (v : Int) (buffer : List Nat) : Option (List Nat) :=
  some (buffer ++ leBytes 8 (toUnsigned 64 v))

/-- `impl_serialize!(u16, write_u16<LittleEndian>)`. -/
def serializeU16 (v : Nat) (buffer : List Nat) : Option (List Nat) :=
  some (buffer ++ leBytes 2 (v % 2 ^ 16))

/-- `impl_serialize!(u32, write_u32<LittleEndian>)`. -/
def serializeU32 (v : Nat) (buffer : List Nat) : Option (List Nat) :=
  some (buffer ++ leBytes 4 (v % 2 ^ 32))

/-- `impl_serialize!(u64, write_u64<LittleEndian>)`. -/
def serializeU64 (v : Nat) (buffer : List Nat) : Option (List Nat) :=
  some (buffer ++ leBytes 8 (v % 2 ^ 64))

/-- `impl_serialize!(f32, write_f32<LittleEndian>)`; `bits` is the IEEE-754
bit pattern of the float. -/
def serializeF32 (bits : Nat) (buffer : List Nat) : Option (List Nat) :=
  some (buffer ++ leBytes 4 (bits % 2 ^ 32))

/-- `impl_serialize!(f64, write_f64<LittleEndian>)`; `bits` is the IEEE-754
bit pattern of the float. -/
def serializeF64 (bits : Nat) (buffer : List Nat) : Option (List Nat) :=
  some (buffer ++ leBytes 8 (bits % 2 ^ 64))

/-- `impl Serialize for u128`:
`buffer.write_u64::<BigEndian>(self.high64())` then
`buffer.write_u64::<BigEndian>(self.low64())`. -/
def serializeU128 (v : Nat) (buffer : List Nat) : Option (List Nat) :=
  some (buffer ++ beBytes 8 (v / 2 ^ 64 % 2 ^ 64) ++ beBytes 8 (v % 2 ^ 64))

/-- `extprim::i128::i128::as_u128`: reinterpret the two's-complement bit
pattern as an unsigned 128-bit value. -/
def i128AsU128 (v : Int) : Nat :=
  toUnsigned 128 v

/-- `impl Serialize for i128`: `self.as_u128().serialize_to(buffer)`. -/
def serializeI128 (v : Int) (buffer : List Nat) : Option (List Nat) :=
  serializeU128 (i128AsU128 v) buffer

/-- `impl Serialize for (i128, i128)`: `self.1.serialize_to(buffer)` then
`self.0.serialize_to(buffer)`. -/
def serializePairI128 (p : Int × Int) (buffer : List Nat) : Option (List Nat) :=
  (serializeI128 p.2 buffer).bind (serializeI128 p.1)

/-- The `for _ in 0..(4 - rem) { buffer.push(0) }` padding loop of the
`String` impl, guarded by `if rem > 0`. -/
def stringPadding (len : Nat) : List Nat :=
  if len % 4 > 0 then List.replicate (4 - len % 4) 0 else []

/-- `impl Serialize for String`.  A string is carried as its UTF-8 byte
list (`self.len()` and `self.as_bytes()` both see those bytes).  The
`none` case models the panic inside
`buffer.write_uint::<LittleEndian>(len as u64, 3)`: `byteorder` asserts
that the value fits in the requested 3 bytes and panics otherwise. -/
def serializeString (s : List Nat) (buffer : List Nat) : Option (List Nat) :=
  let len := s.length
  if len ≤ 253 then
    some (buffer ++ [len] ++ s ++ stringPadding len)
  else if len < 2 ^ 24 then
    some (buffer ++ [254] ++ leBytes 3 len ++ s ++ stringPadding len)
  else
    none

/-- The fixed `Vec` type identifier written by `impl Serialize for Vec<T>`:
`buffer.write_u32::<LittleEndian>(0x1cb5c415u32)`. -/
def vectorTag : Nat := 0x1cb5c415

/-- `impl<T: Serialize> Serialize for Vec<T>`: write the `Vec` type tag,
then `let len = buffer.len() as u32` — the length **of the output buffer
after the tag was written**, not the element count — as a little-endian
`u32`, then each element in order via the element serializer. -/
def serializeVec (serElem : α → List Nat → Option (List Nat))
    (xs : List α) (buffer : List Nat) : Option (List Nat) :=
  let afterTag := buffer ++ leBytes 4 vectorTag
  let afterLen := afterTag ++ leBytes 4 (afterTag.length % 2 ^ 32)
  go xs afterLen
where
  /-- `for element in self { element.serialize_to(buffer)?; }` -/
  go : List α → List Nat → Option (List Nat)
    | [], buf => some buf
    | x :: rest, buf =>
      match serElem x buf with
      | some buf' => go rest buf'
      | none => none

/-- The closed universe of types implementing `Serialize` in `ser.rs`.
`vBoxAny` models `Box<Any>`: `some v` is a `Box<Any>` whose contained
concrete type is `Box<Serialize>` (so the `downcast_ref::<Box<Serialize>>`
succeeds and yields the serializable value `v`); `none` is a `Box<Any>`
holding any other concrete type, for which the downcast fails. -/
inductive Value where
  | vBool (b : Bool)
  | vI8 (v : Int)
  | vU8 (v : Nat)
  | vI16 (v : Int)
  | vI32 (v : Int)
  | vI64 (v : Int)
  | vU16 (v : Nat)
  | vU32 (v : Nat)
  | vU64 (v : Nat)
  | vF32 (bits : Nat)
  | vF64 (bits : Nat)
  | vI128 (v : Int)
  | vU128 (v : Nat)
  | vPairI128 (p : Int × Int)
  | vString (s : List Nat)
  | vVec (xs : List Value)
  | vBoxAny (contained : Option Value)
deriving Repr

mutual

/-- Dispatch of `Serialize::serialize_to` over every impl in `ser.rs`.
The `vVec` case is `impl<T: Serialize> Serialize for Vec<T>` with the
element serializer instantiated recursively; the `vBoxAny` case is
`impl Serialize for Box<Any>`, whose `None` branch of the downcast runs
`panic!("Serialize not implemented")` (modelled as `none`). -/
def serializeValue : Value → List Nat → Option (List Nat)
  | .vBool b, buffer => serializeBool b buffer
  | .vI8 v, buffer => serializeI8 v buffer
  | .vU8 v, buffer => serializeU8 v buffer
  | .vI16 v, buffer => serializeI16 v buffer
  | .vI32 v, buffer => serializeI32 v buffer
  | .vI64 v, buffer => serializeI64 v buffer
  | .vU16 v, buffer => serializeU16 v buffer
  | .vU32 v, buffer => serializeU32 v buffer
  | .vU64 v, buffer => serializeU64 v buffer
  | .vF32 bits, buffer => serializeF32 bits buffer
  | .vF64 bits, buffer => serializeF64 bits buffer
  | .vI128 v, buffer => serializeI128 v buffer
  | .vU128 v, buffer => serializeU128 v buffer
  | .vPairI128 p, buffer => serializePairI128 p buffer
  | .vString s, buffer => serializeString s buffer
  | .vVec xs, buffer =>
    let afterTag := buffer ++ leBytes 4 vectorTag
    let afterLen := afterTag ++ leBytes 4 (afterTag.length % 2 ^ 32)
    serializeValues xs afterLen
  | .vBoxAny (some v), buffer => serializeValue v buffer
  | .vBoxAny none, _buffer => none

/-- The element loop of the `Vec<T>` impl:
`for element in self { element.serialize_to(buffer)?; }`. -/
def serializeValues : List Value → List Nat → Option (List Nat)
  | [], buffer => some buffer
  | x :: rest, buffer =>
    match serializeValue x buffer with
    | some buffer' => serializeValues rest buffer'
    | none => none

end

/-- `Client::send` from `client.rs`, as a function of its three effectful
stages.  `toHttpRequest` is `req.to_http_request()?` (a `request.rs` module
outside `src/`, abstracted as an arbitrary result); `httpExchange` is the
hyper call `self.http_client.request(..)` composed with
`res.body().concat2()` and `.map_err(|err| err.into())`; `fromReader` is
`Response::from_reader` composed through `.map(..).flatten()`.  The final
`.map(on_receive_handler)` applies the continuation to the decoded
response, and `self.core.run(promise)` returns the resulting
`error::Result`.  A future's `map` does not run its function on the error
path, so the continuation is only reached on a fully successful chain. -/
def clientSend {E H D Resp R : Type}
    (toHttpRequest : Except E H)
    (httpExchange : H → Except E D)
    (fromReader : D → Except E Resp)
    (onReceiveHandler : Resp → R) : Except E R :=
  match toHttpRequest with
  | .error e => .error e
  | .ok httpRequest =>
    match httpExchange httpRequest with
    | .error e => .error e
    | .ok data =>
      match fromReader data with
      | .error e => .error e
      | .ok response => .ok (onReceiveHandler response)

/-- Byte-level decode failures named by the spec (§7). -/
inductive CodecError where
  | truncated
  | unexpectedTag
deriving Repr, DecidableEq

/-- Modelled from the spec: the decoder (`serde_mtproto` / `response.rs`)
is not under `src/`.  Reading a `k`-byte little-endian integer, rejecting
short input: "decode MUST reject inputs shorter than the minimum required
length with `CodecError::Truncated`". -/
def readLE : Nat → List Nat → Except CodecError (Nat × List Nat)
  | 0, bytes => .ok (0, bytes)
  | _ + 1, [] => .error .truncated
  | k + 1, b :: rest =>
    match readLE k rest with
    | .ok (v, rem) => .ok (b + 256 * v, rem)
    | .error e => .error e

/-- Modelled from the spec: decoding `n` consecutive bare 32-bit
little-endian integers ("followed by each element's bare (unboxed)
encoding in order"). -/
def readU32List : Nat → List Nat → Except CodecError (List Nat × List Nat)
  | 0, bytes => .ok ([], bytes)
  | n + 1, bytes =>
    match readLE 4 bytes with
    | .ok (v, rest) =>
      match readU32List n rest with
      | .ok (vs, rem) => .ok (v :: vs, rem)
      | .error e => .error e
    | .error e => .error e

/-- Modelled from the spec: decoding a sequence of 32-bit integers per
§4.1 "Sequences": read the 4-byte little-endian container type-tag and
check it is the vector magic ("Decoding must validate the tag matches the
expected vector magic, else `CodecError::UnexpectedTag`"), read the 4-byte
little-endian element count, then decode that many bare elements. -/
def deserializeVecU32 (bytes : List Nat) : Except CodecError (List Nat × List Nat) :=
  match readLE 4 bytes with
  | .error e => .error e
  | .ok (tag, rest) =>
    if tag = vectorTag then
      match readLE 4 rest with
      | .error e => .error e
      | .ok (count, rest') => readU32List count rest'
    else
      .error .unexpectedTag

/-! ## Helper lemmas -/

mutual

/-- Every `serialize_to` impl only ever appends to the buffer it is given
(shared helper for the frame-effect claim). -/
theorem serializeValue_extends : ∀ (v : Value) (buffer out : List Nat),
    serializeValue v buffer = some out → ∃ s, out = buffer ++ s
  | .vBool b, buffer, out, h => by
    cases b <;> simp [serializeValue, serializeBool] at h <;> exact ⟨_, h.symm⟩
  | .vI8 v, buffer, out, h => by
    simp [serializeValue, serializeI8] at h; exact ⟨_, h.symm⟩
  | .vU8 v, buffer, out, h => by
    simp [serializeValue, serializeU8] at h; exact ⟨_, h.symm⟩
  | .vI16 v, buffer, out, h => by
    simp [serializeValue, serializeI16] at h; exact ⟨_, h.symm⟩
  | .vI32 v, buffer, out, h => by
    simp [serializeValue, serializeI32] at h; exact ⟨_, h.symm⟩
  | .vI64 v, buffer, out, h => by
    simp [serializeValue, serializeI64] at h; exact ⟨_, h.symm⟩
  | .vU16 v, buffer, out, h => by
    simp [serializeValue, serializeU16] at h; exact ⟨_, h.symm⟩
  | .vU32 v, buffer, out, h => by
    simp [serializeValue, serializeU32] at h; exact ⟨_, h.symm⟩
  | .vU64 v, buffer, out, h => by
    simp [serializeValue, serializeU64] at h; exact ⟨_, h.symm⟩
  | .vF32 bits, buffer, out, h => by
    simp [serializeValue, serializeF32] at h; exact ⟨_, h.symm⟩
  | .vF64 bits, buffer, out, h => by
    simp [serializeValue, serializeF64] at h; exact ⟨_, h.symm⟩
  | .vI128 v, buffer, out, h => by
    simp [serializeValue, serializeI128, serializeU128, List.append_assoc] at h
    exact ⟨_, h.symm⟩
  | .vU128 v, buffer, out, h => by
    simp [serializeValue, serializeU128, List.append_assoc] at h
    exact ⟨_, h.symm⟩
  | .vPairI128 p, buffer, out, h => by
    simp [serializeValue, serializePairI128, serializeI128, serializeU128,
      List.append_assoc] at h
    exact ⟨_, h.symm⟩
  | .vString s, buffer, out, h => by
    rw [serializeValue, serializeString] at h
    split at h
    · simp [List.append_assoc] at h
      exact ⟨_, h.symm⟩
    · split at h
      · simp [List.append_assoc] at h
        exact ⟨_, h.symm⟩
      · simp at h
  | .vVec xs, buffer, out, h => by
    rw [serializeValue] at h
    obtain ⟨s, hs⟩ := serializeValues_extends xs _ out h
    exact ⟨leBytes 4 vectorTag ++ leBytes 4 ((buffer ++ leBytes 4 vectorTag).length % 2 ^ 32) ++ s,
      by rw [hs]; simp [List.append_assoc]⟩
  | .vBoxAny (some v), buffer, out, h =>
    serializeValue_extends v buffer out h
  | .vBoxAny none, buffer, out, h => by
    simp [serializeValue] at h

/-- The element loop of the `Vec<T>` impl only ever appends to the buffer
(shared helper for the frame-effect claim). -/
theorem serializeValues_extends : ∀ (xs : List Value) (buffer out : List Nat),
    serializeValues xs buffer = some out → ∃ s, out = buffer ++ s
  | [], buffer, out, h => by
    simp [serializeValues] at h
    exact ⟨[], by simp [h]⟩
  | x :: rest, buffer, out, h => by
    rw [serializeValues] at h
    cases hx : serializeValue x buffer with
    | none => rw [hx] at h; simp at h
    | some buffer' =>
      rw [hx] at h
      obtain ⟨s1, hs1⟩ := serializeValue_extends x buffer buffer' hx
      obtain ⟨s2, hs2⟩ := serializeValues_extends rest buffer' out h
      exact ⟨s1 ++ s2, by rw [hs2, hs1]; simp [List.append_assoc]⟩

end

/-! ## Claim theorems -/

/-- Claim C1 (refuted, code bug): serializing a `Vec` is claimed to append
the 4-byte little-endian vector tag, then *the number of elements* as a
4-byte little-endian integer, then the elements.  The code instead writes
`buffer.len() as u32` — the byte length of the output buffer measured
*after* the tag was written.  Serializing the one-element `Vec<u8>`
`vec![7]` into an empty buffer produces a count field of `4`, not `1`. -/
theorem vec_count_field_is_buffer_length :
    serializeVec serializeU8 [7] [] =
      some (leBytes 4 vectorTag ++ leBytes 4 4 ++ [7])
    ∧ ([(7 : Nat)].length = 1 ∧ (4 : Nat) ≠ 1) := by
  decide

/-- Claim C2 (refuted, code bug): the total bytes appended for a string of
byte-length `L` are claimed to be a positive multiple of 4.  The padding
loop computes `len % 4` over the payload length alone, ignoring the 1-byte
prefix, so every short string serializes to `1 + L + padding ≡ 1 (mod 4)`
bytes: the empty string appends 1 byte and `"a"` appends 5 bytes. -/
theorem short_string_total_not_multiple_of_four :
    serializeString [] [] = some [0]
    ∧ serializeString [97] [] = some [1, 97, 0, 0, 0]
    ∧ ¬ 4 ∣ ([(0 : Nat)] : List Nat).length
    ∧ ¬ 4 ∣ ([1, 97, 0, 0, 0] : List Nat).length := by
  decide

/-- Claim C3 (confirmed): serializing a 128-bit integer appends exactly 16
bytes — the high 64-bit half big-endian, then the low 64-bit half
big-endian — and the nonce `0x3E0549828CCA27E966B301A48FECE2FC` encodes to
`3E 05 49 82 8C CA 27 E9 66 B3 01 A4 8F EC E2 FC`. -/
theorem u128_big_endian_halves (n : Nat) (h : n < 2 ^ 128) (buffer : List Nat) :
    serializeU128 n buffer =
      some (buffer ++ (beBytes 8 (n / 2 ^ 64) ++ beBytes 8 (n % 2 ^ 64)))
    ∧ (beBytes 8 (n / 2 ^ 64) ++ beBytes 8 (n % 2 ^ 64)).length = 16
    ∧ serializeU128 0x3E0549828CCA27E966B301A48FECE2FC [] =
        some [0x3E, 0x05, 0x49, 0x82, 0x8C, 0xCA, 0x27, 0xE9,
              0x66, 0xB3, 0x01, 0xA4, 0x8F, 0xEC, 0xE2, 0xFC] := by
  have hdiv : n / 2 ^ 64 < 2 ^ 64 := by
    apply Nat.div_lt_of_lt_mul
    calc n < 2 ^ 128 := h
    _ = 2 ^ 64 * 2 ^ 64 := by norm_num
  refine ⟨?_, by simp, by decide⟩
  simp only [serializeU128, Nat.mod_eq_of_lt hdiv, List.append_assoc]

/-- Witness for C3 at the nonce from the reference vector. -/
theorem u128_big_endian_halves_witness :
    (0x3E0549828CCA27E966B301A48FECE2FC : Nat) < 2 ^ 128
    ∧ serializeU128 0x3E0549828CCA27E966B301A48FECE2FC [] =
        some [0x3E, 0x05, 0x49, 0x82, 0x8C, 0xCA, 0x27, 0xE9,
              0x66, 0xB3, 0x01, 0xA4, 0x8F, 0xEC, 0xE2, 0xFC] :=
  ⟨by norm_num,
   (u128_big_endian_halves 0x3E0549828CCA27E966B301A48FECE2FC (by norm_num) []).2.2⟩

/-- Claim C4 (refuted, code bug): the round-trip law
`decode(encode(v)) = v` fails already for the empty sequence — a boundary
value named by the claim.  The encoder writes the post-tag buffer length
(4) where the element count belongs, so the spec-faithful decoder reads a
count of 4 from the 8-byte encoding of the empty `Vec<u32>` and runs off
the end of the input with `Truncated`. -/
theorem roundtrip_fails_on_empty_sequence :
    serializeVec serializeU32 ([] : List Nat) [] =
      some [0x15, 0xC4, 0xB5, 0x1C, 4, 0, 0, 0]
    ∧ deserializeVecU32 [0x15, 0xC4, 0xB5, 0x1C, 4, 0, 0, 0] =
        .error .truncated :=
  ⟨rfl, rfl⟩

/-- Claim C5 (refuted, code bug): encoding is claimed to be total —
never panicking — including the opaque `Box<Any>` path.  The `Box<Any>`
impl runs `panic!("Serialize not implemented")` whenever the
`downcast_ref::<Box<Serialize>>` fails, i.e. for every contained concrete
type other than `Box<Serialize>` (the code's own `FIXME: Return an error`
marks the panic as wrong). -/
theorem box_any_serialize_panics :
    serializeValue (Value.vBoxAny none) [] = none :=
  rfl

/-- Claim C6 (confirmed): `true` and `false` each serialize to exactly 4
bytes — the little-endian magic constants `0x997275B5` and `0xBC799737`
respectively — and the two constants are distinct. -/
theorem bool_magic_constants (buffer : List Nat) :
    serializeBool true buffer = some (buffer ++ [0xB5, 0x75, 0x72, 0x99])
    ∧ serializeBool false buffer = some (buffer ++ [0x37, 0x97, 0x79, 0xBC])
    ∧ ([0xB5, 0x75, 0x72, 0x99] : List Nat) ≠ [0x37, 0x97, 0x79, 0xBC]
    ∧ ([0xB5, 0x75, 0x72, 0x99] : List Nat).length = 4
    ∧ ([0x37, 0x97, 0x79, 0xBC] : List Nat).length = 4 := by
  have h1 : leBytes 4 (toUnsigned 32 (-1720552011)) = [0xB5, 0x75, 0x72, 0x99] := by decide
  have h2 : leBytes 4 (toUnsigned 32 (-1132882121)) = [0x37, 0x97, 0x79, 0xBC] := by decide
  refine ⟨?_, ?_, by decide, by decide, by decide⟩ <;> simp [serializeBool, h1, h2]

/-- Claim C7 (corrected): the claimed string length-prefix format holds
for every string of byte-length below `2^24`; at `2^24` and above the
3-byte little-endian length cannot be written and `byteorder::write_uint`
panics, so the claim's universal "for every string" fails. -/
theorem string_length_2pow24_panics :
    serializeString (List.replicate (2 ^ 24) 0) [] = none := by
  rw [serializeString]
  simp only [List.length_replicate]
  norm_num

/-- Claim C7 as amended: for every string of byte-length `L < 2^24`, the
length prefix is the single byte `L` when `L ≤ 253` and otherwise the
sentinel byte 254 followed by `L` as a 3-byte little-endian integer, with
the payload bytes following the prefix verbatim (and then the padding). -/
theorem string_prefix_format (s buffer : List Nat) (h : s.length < 2 ^ 24) :
    (s.length ≤ 253 →
      serializeString s buffer =
        some (buffer ++ [s.length] ++ s ++ stringPadding s.length))
    ∧ (253 < s.length →
      serializeString s buffer =
        some (buffer ++ [254] ++ leBytes 3 s.length ++ s ++ stringPadding s.length)) := by
  constructor
  · intro hle
    simp [serializeString, hle]
  · intro hgt
    simp [serializeString, Nat.not_le.mpr hgt, Nat.not_le]
    omega

/-- Witness for the amended C7 at the one-byte string `"a"`. -/
theorem string_prefix_format_witness :
    ([97] : List Nat).length < 2 ^ 24
    ∧ serializeString [97] [5] = some [5, 1, 97, 0, 0, 0] :=
  ⟨by decide,
   ((string_prefix_format [97] [5] (by decide)).1 (by decide)).trans (by decide)⟩

/-- Claim C8 (confirmed): a pair of 128-bit integers serializes as the
second component followed by the first, each with the 128-bit
big-endian-halves rule, 32 bytes in total. -/
theorem pair_i128_second_then_first (a b : Int) (buffer : List Nat) :
    serializePairI128 (a, b) buffer = (serializeI128 b buffer).bind (serializeI128 a)
    ∧ serializePairI128 (a, b) buffer =
        some (buffer
          ++ (beBytes 8 (i128AsU128 b / 2 ^ 64 % 2 ^ 64) ++ beBytes 8 (i128AsU128 b % 2 ^ 64))
          ++ (beBytes 8 (i128AsU128 a / 2 ^ 64 % 2 ^ 64) ++ beBytes 8 (i128AsU128 a % 2 ^ 64)))
    ∧ ((beBytes 8 (i128AsU128 b / 2 ^ 64 % 2 ^ 64) ++ beBytes 8 (i128AsU128 b % 2 ^ 64))
        ++ (beBytes 8 (i128AsU128 a / 2 ^ 64 % 2 ^ 64) ++ beBytes 8 (i128AsU128 a % 2 ^ 64))).length = 32 := by
  refine ⟨rfl, ?_, by simp⟩
  simp [serializePairI128, serializeI128, serializeU128, List.append_assoc]

/-- Claim C9 (confirmed): when every stage of the exchange succeeds,
`Client::send` returns exactly the continuation's result on the decoded
response; when the serialization stage, the HTTP exchange or the decoding
fails, the result is that error regardless of the continuation (it is
never consulted); equivalently, `send` with continuation `k` is `Except.map
k` of `send` with the identity continuation, so the continuation is applied
exactly to the one decoded response. -/
theorem client_send_continuation (E H D Resp R R2 : Type)
    (toHttpRequest : Except E H) (httpExchange : H → Except E D)
    (fromReader : D → Except E Resp) (handler : Resp → R) :
    (∀ hr data resp, toHttpRequest = .ok hr → httpExchange hr = .ok data →
      fromReader data = .ok resp →
      clientSend toHttpRequest httpExchange fromReader handler = .ok (handler resp))
    ∧ (∀ e, clientSend toHttpRequest httpExchange fromReader handler = .error e →
      ∀ handler2 : Resp → R2,
        clientSend toHttpRequest httpExchange fromReader handler2 = .error e)
    ∧ clientSend toHttpRequest httpExchange fromReader handler =
        Except.map handler (clientSend toHttpRequest httpExchange fromReader id) := by
  refine ⟨?_, ?_, ?_⟩
  · intro hr data resp h1 h2 h3
    simp [clientSend, h1, h2, h3]
  · intro e he handler2
    cases h1 : toHttpRequest with
    | error e' => simp [clientSend, h1] at he ⊢; exact he
    | ok hr =>
      cases h2 : httpExchange hr with
      | error e' => simp [clientSend, h1, h2] at he ⊢; exact he
      | ok data =>
        cases h3 : fromReader data with
        | error e' => simp [clientSend, h1, h2, h3] at he ⊢; exact he
        | ok resp => simp [clientSend, h1, h2, h3] at he
  · cases h1 : toHttpRequest with
    | error e' => simp [clientSend, h1, Except.map]
    | ok hr =>
      cases h2 : httpExchange hr with
      | error e' => simp [clientSend, h1, h2, Except.map]
      | ok data =>
        cases h3 : fromReader data with
        | error e' => simp [clientSend, h1, h2, h3, Except.map]
        | ok resp => simp [clientSend, h1, h2, h3, Except.map]

/-- Witness for C9 at a concrete successful exchange. -/
theorem client_send_continuation_witness :
    @clientSend Unit Nat (List Nat) Nat Nat (Except.ok 0) (fun _ => Except.ok [1, 2])
      (fun _ => Except.ok 5) (fun r => r + 1) = Except.ok 6 :=
  (client_send_continuation Unit Nat (List Nat) Nat Nat Nat
    (Except.ok 0) (fun _ => Except.ok [1, 2]) (fun _ => Except.ok 5)
    (fun r => r + 1)).1 0 [1, 2] 5 rfl rfl rfl

/-- Claim C10 (confirmed): `serialize_to` is append-only — whenever it
returns, the original buffer contents are unchanged and form a prefix of
the new contents, for every encodable value. -/
theorem serialize_to_append_only (v : Value) (buffer out : List Nat)
    (h : serializeValue v buffer = some out) :
    ∃ s, out = buffer ++ s :=
  serializeValue_extends v buffer out h

/-- Witness for C10: serializing `true` into the buffer `[9]`. -/
theorem serialize_to_append_only_witness :
    ∃ s, ([9, 0xB5, 0x75, 0x72, 0x99] : List Nat) = [9] ++ s :=
  serialize_to_append_only (.vBool true) [9] [9, 0xB5, 0x75, 0x72, 0x99] (by decide)
